import Mathlib

/-!
# Verification of the hackathons identity contracts

Shallow embedding of the two identity-verification contracts of the
repository (`ecdsa-identity/contract/src/lib.rs` and
`oidc-identity/{contract,provider}/src/lib.rs`), together with proofs about
the registration / verification / state-digest logic.

Modelling conventions:
* Rust `u32` values are `Nat`s; arithmetic that can overflow is performed
  modulo `2 ^ 32` (the release-profile wrapping semantics of `+=`).
* `Result<T, E>` together with the possibility of a panic is modelled by
  the `Outcome` type below: `.ok`, `.err`, and `.panic`.  A call to
  `unwrap()` / `expect(..)` on an `Err` turns the carried error (resp. the
  `expect` message) into a `.panic`; panics propagate.
* Byte buffers are `List Nat` with every element a byte value.
* The external cryptographic primitives (P-384 SEC1 point parsing, DER
  signature parsing, ECDSA verification, RSA-PKCS1v15 verification,
  SHA-256) are opaque to the contract logic; they are taken as function
  parameters, so every theorem quantifies over them.  Keys and signatures
  are represented by their byte content.
* Rust `BTreeMap<String, AccountInfo>` is a list of key/value pairs kept
  sorted by the byte-lexicographic key order (UTF-8 byte order coincides
  with char/code-point order, which `charListLt` below implements).
-/

/-- Result of executing a fallible piece of Rust code: a success value, a
returned error, or a panic (`unwrap` / `expect` on an error, whose payload
here records the unwrapped message or the `expect` text). -/
inductive Outcome (α : Type) where
  | ok : α → Outcome α
  | err : String → Outcome α
  | panic : String → Outcome α
deriving DecidableEq, Repr

/-- `AccountInfo { hash: String, nonce: u32 }` shared by both contracts. -/
structure AccountInfo where
  hash : String
  nonce : Nat
deriving DecidableEq, Repr

/-- The `identities : BTreeMap<String, AccountInfo>` field of the contract
state, as a key-sorted association list. -/
abbrev IdentityStore := List (String × AccountInfo)

/-- The wrapping modulus of a Rust `u32`. -/
def U32LIM : Nat := 4294967296

/-- Byte/code-point lexicographic order on char lists: the order Rust's
`Ord for String` uses (UTF-8 byte order equals code-point order). -/
def charListLt : List Char → List Char → Bool
  | [], [] => false
  | [], _ :: _ => true
  | _ :: _, [] => false
  | a :: as, b :: bs => if a < b then true else if b < a then false else charListLt as bs

/-- Key order on strings, used by the `BTreeMap` model. -/
def keyLt (a b : String) : Bool := charListLt a.data b.data

/-- `BTreeMap::get` (equality-based association-list lookup). -/
def lookupKey : IdentityStore → String → Option AccountInfo
  | [], _ => none
  | (k', v') :: rest, k => if k = k' then some v' else lookupKey rest k

/-- `BTreeMap::insert`: insert in key order, replacing an existing binding. -/
def insertKey : IdentityStore → String → AccountInfo → IdentityStore
  | [], k, v => [(k, v)]
  | (k', v') :: rest, k, v =>
    if keyLt k k' then (k, v) :: (k', v') :: rest
    else if k = k' then (k, v) :: rest
    else (k', v') :: insertKey rest k v

/-- In-place mutation through `BTreeMap::get_mut`: replace the value bound
to `k`, leaving everything else (including the position) unchanged. -/
def updateKey : IdentityStore → String → AccountInfo → IdentityStore
  | [], _, _ => []
  | (k', v') :: rest, k, v =>
    if k = k' then (k, v) :: rest else (k', v') :: updateKey rest k v

theorem charListLt_irrefl (l : List Char) : charListLt l l = false := by
  induction l with
  | nil => rfl
  | cons a as ih =>
    simp only [charListLt, lt_irrefl, if_false, ih]

theorem keyLt_ne {a b : String} (h : keyLt a b = true) : a ≠ b := by
  intro hab
  subst hab
  rw [keyLt, charListLt_irrefl] at h
  exact Bool.false_ne_true h

/-- Lookup after a sorted insert: the inserted key maps to the new value,
every other key is unaffected.  Holds for arbitrary association lists. -/
theorem lookupKey_insertKey (s : IdentityStore) (k k' : String) (v : AccountInfo) :
    lookupKey (insertKey s k v) k' = if k' = k then some v else lookupKey s k' := by
  induction s with
  | nil =>
    by_cases h : k' = k <;> simp [insertKey, lookupKey, h]
  | cons e rest ih =>
    obtain ⟨k₀, v₀⟩ := e
    by_cases hlt : keyLt k k₀ = true
    · by_cases h : k' = k <;> simp [insertKey, hlt, lookupKey, h]
    · by_cases heq : k = k₀
      · subst heq
        by_cases h : k' = k <;> simp [insertKey, hlt, lookupKey, h]
      · by_cases h : k' = k
        · subst h
          simp [insertKey, hlt, heq, lookupKey, ih]
        · by_cases h0 : k' = k₀ <;>
            simp [insertKey, hlt, heq, lookupKey, h0, ih, h, Ne.symm heq]

/-- Lookup after an in-place update. -/
theorem lookupKey_updateKey (s : IdentityStore) (k k' : String) (v : AccountInfo) :
    lookupKey (updateKey s k v) k' =
      if k' = k ∧ (lookupKey s k).isSome then some v else lookupKey s k' := by
  induction s with
  | nil => simp [updateKey, lookupKey]
  | cons e rest ih =>
    obtain ⟨k₀, v₀⟩ := e
    by_cases heq : k = k₀
    · subst heq
      by_cases h : k' = k <;> simp [updateKey, lookupKey, h]
    · by_cases h0 : k' = k₀
      · subst h0
        have hkk : ¬ k' = k := fun h => heq h.symm
        simp [updateKey, heq, lookupKey, Ne.symm heq, hkk]
      · simp [updateKey, heq, lookupKey, h0, ih]

/-! ## UTF-8 byte encoding of strings (Rust `str::as_bytes`) -/

/-- UTF-8 encoding of a single scalar value. -/
def utf8EncodeChar (c : Char) : List Nat :=
  let n := c.toNat
  if n < 128 then [n]
  else if n < 2048 then [192 + n / 64, 128 + n % 64]
  else if n < 65536 then [224 + n / 4096, 128 + (n / 64) % 64, 128 + n % 64]
  else [240 + n / 262144, 128 + (n / 4096) % 64, 128 + (n / 64) % 64, 128 + n % 64]

/-- UTF-8 encoding of a char list. -/
def utf8ListBytes (cs : List Char) : List Nat := (cs.map utf8EncodeChar).flatten

/-- `String::as_bytes`. -/
def strBytes (s : String) : List Nat := utf8ListBytes s.data

/-! ## ECDSA identity contract (`ecdsa-identity/contract/src/lib.rs`) -/

namespace Ecdsa

/-- An `sdk::Blob`: a contract name and opaque byte data. -/
structure Blob where
  contract_name : String
  data : List Nat

/-- `IdentityAction` of `ecdsa-identity/contract/src/actions.rs`. -/
inductive IdentityAction where
  | RegisterIdentity (signature : String)
  | VerifyIdentity (nonce : Nat) (signature : Option String)

/-- One hex digit (the `hex` crate accepts `0-9a-fA-F`). -/
def hexDigit (c : Char) : Option Nat :=
  if '0' ≤ c ∧ c ≤ '9' then some (c.toNat - 48)
  else if 'a' ≤ c ∧ c ≤ 'f' then some (c.toNat - 87)
  else if 'A' ≤ c ∧ c ≤ 'F' then some (c.toNat - 55)
  else none

/-- `hex::decode` on the char list: fails on odd length or a non-hex char. -/
def hexPairs : List Char → Option (List Nat)
  | [] => some []
  | [_] => none
  | h :: l :: rest =>
    match hexDigit h, hexDigit l, hexPairs rest with
    | some a, some b, some bs => some ((a * 16 + b) :: bs)
    | _, _, _ => none

/-- `hex::decode`. -/
def hexDecode (s : String) : Option (List Nat) := hexPairs s.data

/-- `verify_signature` (lib.rs:227).  The p384 primitives are abstracted:
`sec1Parse` stands for `VerifyingKey::from_sec1_bytes`, `derParse` for
`Signature::from_der`, `ecdsaVerify` for `VerifyingKey::verify(..).is_ok()`;
parsed keys/signatures are represented by their byte content.  The source
calls `.expect(..)` on the SEC1 parse and `.unwrap()` on the DER parse, so
those two failures are panics, while the two hex failures are returned
errors. -/
def verify_signature (sec1Parse derParse : List Nat → Option (List Nat))
    (ecdsaVerify : List Nat → List Nat → List Nat → Bool)
    (pub_key signature_hex message : String) : Outcome Bool :=
  match hexDecode pub_key with
  | none => .err "Failed to decode Pub key"
  | some pubkey_bytes =>
    match sec1Parse pubkey_bytes with
    | none => .panic "Failed to generate verifying key"
    | some verifying_key =>
      match hexDecode signature_hex with
      | none => .err "Failed to decode Signature"
      | some signature_bytes =>
        match derParse signature_bytes with
        | none => .panic "Signature from_der failed"
        | some signature => .ok (ecdsaVerify verifying_key signature (strBytes message))

/-- `{:?}` debug form of a `Vec<u8>`. -/
def debugBytes (l : List Nat) : String :=
  "[" ++ String.intercalate ", " (l.map toString) ++ "]"

/-- The message signed by a `Verify` call (lib.rs:163-169):
`"verify {nonce} {join of blob lines}"`. -/
def verifyMessage (nonce : Nat) (blobs : List Blob) : String :=
  "verify " ++ toString nonce ++ " " ++
    String.intercalate " " (blobs.map fun b => b.contract_name ++ " " ++ debugBytes b.data)

/-- `IdentityContractState::register_identity` (lib.rs:125-148).  `vs` is
the signature verifier (in the contract, `verify_signature` with the p384
primitives); its result is `.unwrap()`ed, so a verifier error panics.  The
source runs `identities.insert(..)` first and errors if the key was
present, which overwrites the stored record before the error is returned;
that is modelled by a prior lookup plus an unconditional insert. -/
def register_identity (vs : String → String → String → Outcome Bool)
    (sha256hex : String → String) (ids : IdentityStore)
    (pub_key signature : String) : Outcome String × IdentityStore :=
  match vs pub_key signature "Hyle Registration" with
  | .err m => (.panic m, ids)
  | .panic m => (.panic m, ids)
  | .ok valid =>
    if valid = false then (.err "Invalid signature", ids)
    else
      let account_info : AccountInfo := { hash := sha256hex pub_key, nonce := 0 }
      if (lookupKey ids pub_key).isSome then
        (.err "Identity already exists", insertKey ids pub_key account_info)
      else (.ok "Identity registered", insertKey ids pub_key account_info)

/-- `IdentityContractState::verify_identity` (lib.rs:150-190).  The nonce
test precedes everything else; the hash comparison yields `Ok(false)`
without mutation; only the full-success branch bumps the nonce (u32
wrapping add). -/
def verify_identity (vs : String → String → String → Outcome Bool)
    (sha256hex : String → String) (ids : IdentityStore) (pub_key : String)
    (nonce : Nat) (blobs : List Blob) (signature : String) :
    Outcome Bool × IdentityStore :=
  match lookupKey ids pub_key with
  | none => (.err "Identity not found", ids)
  | some stored_info =>
    if nonce ≠ stored_info.nonce then (.err "Invalid nonce", ids)
    else
      match vs pub_key signature (verifyMessage nonce blobs) with
      | .err m => (.panic m, ids)
      | .panic m => (.panic m, ids)
      | .ok valid =>
        if valid = false then (.err "Invalid signature", ids)
        else if stored_info.hash ≠ sha256hex pub_key then (.ok false, ids)
        else
          (.ok true,
            updateKey ids pub_key
              { hash := stored_info.hash, nonce := (stored_info.nonce + 1) % U32LIM })

/-- `str::trim_end_matches` with a nonempty pattern removes the pattern
from the end as long as it is a suffix; fuel `s.length` suffices since
each round removes at least one char. -/
def trimEndAux : Nat → List Char → List Char → List Char
  | 0, _, s => s
  | fuel + 1, pat, s =>
    if pat ≠ [] ∧ pat.isSuffixOf s then
      trimEndAux fuel pat (s.take (s.length - pat.length))
    else s

/-- `str::trim_end_matches` (empty patterns strip nothing). -/
def trimEndMatchesList (pat s : List Char) : List Char := trimEndAux s.length pat s

/-- The credential key derived from the account id (lib.rs:94-97):
`account.trim_end_matches(contract_name).trim_end_matches(".")`. -/
def stripAccount (account contract_name : String) : String :=
  String.mk (trimEndMatchesList ['.'] (trimEndMatchesList contract_name.data account.data))

/-- `execute_action` (lib.rs:82-119).  The account-format test is
`account.ends_with(contract_name)` — the dot in the error text is not part
of the check.  On an `Err` program output no state is produced. -/
def execute_action (vs : String → String → String → Outcome Bool)
    (sha256hex : String → String) (state : IdentityStore)
    (action : IdentityAction) (contract_name account : String)
    (blobs : List Blob) : Outcome (String × IdentityStore) :=
  if contract_name.data.isSuffixOf account.data = false then
    .err ("Invalid account extension. '." ++ contract_name ++ "' expected.")
  else
    let pub_key := stripAccount account contract_name
    match action with
    | .RegisterIdentity signature =>
      match register_identity vs sha256hex state pub_key signature with
      | (.ok m, s') => .ok (m, s')
      | (.err m, _) => .err m
      | (.panic m, _) => .panic m
    | .VerifyIdentity nonce osig =>
      match osig with
      | some sig =>
        match verify_identity vs sha256hex state pub_key nonce blobs sig with
        | (.ok true, s') => .ok ("Identity verified for account: " ++ account, s')
        | (.ok false, _) => .err ("Identity verification failed for account: " ++ account)
        | (.err e, _) => .err ("⚠️ Error verifying identity: " ++ e)
        | (.panic m, _) => .panic m
      | none =>
        .err ("Identity verification failed for account " ++ account ++ ", missing signature")

/-- Stores reachable from `IdentityContractState::new()` by any sequence
of `register_identity` / `verify_identity` calls (any verifier, any
arguments), with a fixed hash function. -/
inductive Reach (sha256hex : String → String) : IdentityStore → Prop where
  | init : Reach sha256hex []
  | reg (vs : String → String → String → Outcome Bool) (k sig : String)
      (s : IdentityStore) :
      Reach sha256hex s → Reach sha256hex (register_identity vs sha256hex s k sig).2
  | ver (vs : String → String → String → Outcome Bool) (k : String) (n : Nat)
      (blobs : List Blob) (sig : String) (s : IdentityStore) :
      Reach sha256hex s → Reach sha256hex (verify_identity vs sha256hex s k n blobs sig).2

end Ecdsa

/-! ## OIDC identity contract
(`oidc-identity/contract/src/lib.rs` and `oidc-identity/provider/src/lib.rs`) -/

namespace Oidc

/-- `OpenIdContext` (provider/src/lib.rs:18-22). -/
structure OpenIdContext where
  issuer : String
  audience : String

/-- `JwkPublicKey` (provider/src/lib.rs:12-16). -/
structure JwkPublicKey where
  n : String
  e : String

/-- The JWT claims `{sub, email, exp, aud, iss}` (shape taken from the
`Claims` struct used by the contract's own tests). -/
structure Claims where
  sub : String
  email : String
  exp : Nat
  aud : String
  iss : String

/-- Rust `str::split('.')`: every maximal dot-free run, keeping empties. -/
def splitDot : List Char → List (List Char)
  | [] => [[]]
  | c :: cs =>
    if c = '.' then [] :: splitDot cs
    else
      match splitDot cs with
      | seg :: rest => (c :: seg) :: rest
      | [] => [[c]]

/-- Modelled from the spec: `jwt::verify_jwt_signature` lives in
`oidc-identity/contract/src/jwt.rs`, which is not among the provided
sources; this follows spec §4.3 word for word.  Split the compact token on
dots and fail `MalformedToken` unless there are exactly three segments;
verify the RS256 signature over `header.payload` (the RSA-PKCS1v15/SHA-256
check is abstracted as `rsaVerify`), failing `InvalidSignature`; decode
the payload into claims (abstracted as `decodeClaims`), failing
`ClaimsDecodeError`; require the issuer and audience to match the
caller-supplied context, failing `ClaimMismatch`; return the claims. -/
def verify_jwt_signature (rsaVerify : JwkPublicKey → String → String → Bool)
    (decodeClaims : String → Option Claims) (token : String)
    (jwk_pub_key : JwkPublicKey) (context : OpenIdContext) : Outcome Claims :=
  match (splitDot token.data).map String.mk with
  | [header, payload, sgn] =>
    if rsaVerify jwk_pub_key (header ++ "." ++ payload) sgn = false then
      .err "InvalidSignature"
    else
      match decodeClaims payload with
      | none => .err "ClaimsDecodeError"
      | some claims =>
        if claims.iss ≠ context.issuer then .err "ClaimMismatch"
        else if claims.aud ≠ context.audience then .err "ClaimMismatch"
        else .ok claims
  | _ => .err "MalformedToken"

/-- `OidcIdentity::register_identity` (contract lib.rs:49-79).  `jwtVerify`
stands for `jwt::verify_jwt_signature`; the source wraps it in
`.expect("Failed to verify ID token JWT")`, so any token failure panics.
As in the ECDSA contract, `identities.insert(..)` runs before the
already-exists test, overwriting the record. -/
def register_identity (jwtVerify : String → JwkPublicKey → OpenIdContext → Outcome Claims)
    (sha256hex : String → String) (ids : IdentityStore) (account : String)
    (context : OpenIdContext) (jwk_pub_key : JwkPublicKey)
    (private_input : String) : Outcome Unit × IdentityStore :=
  match jwtVerify private_input jwk_pub_key context with
  | .err _ => (.panic "Failed to verify ID token JWT", ids)
  | .panic m => (.panic m, ids)
  | .ok data =>
    if (lookupKey ids account).isSome then
      (.err "Identity already exists",
        insertKey ids account { hash := sha256hex (data.sub ++ ":" ++ data.iss), nonce := 0 })
    else
      (.ok (),
        insertKey ids account { hash := sha256hex (data.sub ++ ":" ++ data.iss), nonce := 0 })

/-- `OidcIdentity::verify_identity` (contract lib.rs:81-114). -/
def verify_identity (jwtVerify : String → JwkPublicKey → OpenIdContext → Outcome Claims)
    (sha256hex : String → String) (ids : IdentityStore) (account : String)
    (nonce : Nat) (context : OpenIdContext) (jwk_pub_key : JwkPublicKey)
    (private_input : String) : Outcome Bool × IdentityStore :=
  match lookupKey ids account with
  | none => (.err "Identity not found", ids)
  | some stored_info =>
    if nonce ≠ stored_info.nonce then (.err "Invalid nonce", ids)
    else
      match jwtVerify private_input jwk_pub_key context with
      | .err _ => (.panic "Failed to verify ID token JWT", ids)
      | .panic m => (.panic m, ids)
      | .ok data =>
        if stored_info.hash ≠ sha256hex (data.sub ++ ":" ++ data.iss) then (.ok false, ids)
        else
          (.ok true,
            updateKey ids account
              { hash := stored_info.hash, nonce := (stored_info.nonce + 1) % U32LIM })

/-- `serde_json::to_string` of an `AccountInfo` (hash strings are hex, so
no JSON escaping arises). -/
def jsonAccountInfo (a : AccountInfo) : String :=
  "\x7b\"hash\":\"" ++ a.hash ++ "\",\"nonce\":" ++ toString a.nonce ++ "\x7d"

/-- `OidcIdentity::get_identity_info` (contract lib.rs:116-121). -/
def get_identity_info (ids : IdentityStore) (account : String) : Outcome String :=
  match lookupKey ids account with
  | some info => .ok (jsonAccountInfo info)
  | none => .err "Identity not found"

/-- `IdentityAction` (provider/src/lib.rs:47-62). -/
inductive IdentityAction where
  | RegisterIdentity (account : String) (context : OpenIdContext) (jwk_pub_key : JwkPublicKey)
  | VerifyIdentity (account : String) (nonce : Nat) (context : OpenIdContext)
      (jwk_pub_key : JwkPublicKey)
  | GetIdentityInfo (account : String)

/-- `execute_action` (provider/src/lib.rs:87-126).  Note: unlike the ECDSA
dispatcher there is no account-format check of any kind; the action's
`account` string is used directly. -/
def execute_action (jwtVerify : String → JwkPublicKey → OpenIdContext → Outcome Claims)
    (sha256hex : String → String) (state : IdentityStore)
    (action : IdentityAction) (private_input : String) :
    Outcome (String × IdentityStore) :=
  match action with
  | .RegisterIdentity account context jwk_pub_key =>
    match register_identity jwtVerify sha256hex state account context jwk_pub_key private_input with
    | (.ok _, s') => .ok ("Successfully registered identity for account: " ++ account, s')
    | (.err e, _) => .err ("Failed to register identity: " ++ e)
    | (.panic m, _) => .panic m
  | .VerifyIdentity account nonce context jwk_pub_key =>
    match verify_identity jwtVerify sha256hex state account nonce context jwk_pub_key
        private_input with
    | (.ok true, s') => .ok ("Identity verified for account: " ++ account, s')
    | (.ok false, _) => .err ("Identity verification failed for account: " ++ account)
    | (.err e, _) => .err ("Error verifying identity: " ++ e)
    | (.panic m, _) => .panic m
  | .GetIdentityInfo account =>
    match get_identity_info state account with
    | .ok info => .ok ("Retrieved identity info for account: " ++ account ++ ": " ++ info, state)
    | .err e => .err ("Failed to get identity info: " ++ e)
    | .panic m => .panic m

end Oidc

/-! ## State digest codec

`Digestable::as_digest` / `From<sdk::StateDigest>` serialize the contract
state with `bincode::{encode_to_vec, decode_from_slice}` under
`bincode::config::standard()`: little-endian, variable-width integers
(single byte below 251; markers 251/252/253/254 followed by a 2/4/8/16
byte little-endian value), strings as a varint byte length followed by
UTF-8 bytes, maps as a varint entry count followed by the key/value pairs
in key order, structs as their fields in declaration order.  Decoding a
map re-inserts each decoded pair into a fresh `BTreeMap`. -/

/-- `k`-byte little-endian encoding of `n`. -/
def toLE : Nat → Nat → List Nat
  | 0, _ => []
  | k + 1, n => n % 256 :: toLE k (n / 256)

/-- Value of a little-endian byte list. -/
def fromLE : List Nat → Nat
  | [] => 0
  | b :: bs => b + 256 * fromLE bs

/-- bincode varint encoding of an unsigned value (u128 sizes and above do
not occur in this contract state, so the u64 form is the last arm). -/
def varintEncode (n : Nat) : List Nat :=
  if n < 251 then [n]
  else if n < 65536 then 251 :: toLE 2 n
  else if n < 4294967296 then 252 :: toLE 4 n
  else 253 :: toLE 8 n

/-- Read `k` little-endian bytes. -/
def readLE (k : Nat) (bs : List Nat) : Option (Nat × List Nat) :=
  if bs.length < k then none else some (fromLE (bs.take k), bs.drop k)

/-- bincode varint decoding. -/
def varintDecode (bs : List Nat) : Option (Nat × List Nat) :=
  match bs with
  | [] => none
  | b :: rest =>
    if b < 251 then some (b, rest)
    else if b = 251 then readLE 2 rest
    else if b = 252 then readLE 4 rest
    else if b = 253 then readLE 8 rest
    else if b = 254 then readLE 16 rest
    else none

/-- Decode one UTF-8 scalar from the front of a byte list.  Overlong and
surrogate encodings are not rejected here; no claim depends on the
decoder's behaviour outside the image of the encoder. -/
def utf8DecodeChar : List Nat → Option (Char × List Nat)
  | [] => none
  | b :: bs =>
    if b < 128 then some (Char.ofNat b, bs)
    else if b < 192 then none
    else if b < 224 then
      match bs with
      | b1 :: bs1 =>
        if 128 ≤ b1 ∧ b1 < 192 then
          some (Char.ofNat ((b - 192) * 64 + (b1 - 128)), bs1)
        else none
      | [] => none
    else if b < 240 then
      match bs with
      | b1 :: b2 :: bs2 =>
        if (128 ≤ b1 ∧ b1 < 192) ∧ (128 ≤ b2 ∧ b2 < 192) then
          some (Char.ofNat ((b - 224) * 4096 + (b1 - 128) * 64 + (b2 - 128)), bs2)
        else none
      | _ => none
    else if b < 248 then
      match bs with
      | b1 :: b2 :: b3 :: bs3 =>
        if (128 ≤ b1 ∧ b1 < 192) ∧ (128 ≤ b2 ∧ b2 < 192) ∧ (128 ≤ b3 ∧ b3 < 192) then
          some (Char.ofNat ((b - 240) * 262144 + (b1 - 128) * 4096 + (b2 - 128) * 64 + (b3 - 128)),
            bs3)
        else none
      | _ => none
    else none

/-- Decode a whole byte list as UTF-8 (fuelled; `bs.length` is enough fuel
because every scalar consumes at least one byte). -/
def utf8DecodeAux : Nat → List Nat → Option (List Char)
  | _, [] => some []
  | 0, _ :: _ => none
  | fuel + 1, bs =>
    match utf8DecodeChar bs with
    | none => none
    | some (c, rest) =>
      match utf8DecodeAux fuel rest with
      | none => none
      | some cs => some (c :: cs)

/-- `std::str::from_utf8` (modulo the unrejected non-canonical forms noted
at `utf8DecodeChar`). -/
def utf8Decode (bs : List Nat) : Option (List Char) := utf8DecodeAux bs.length bs

/-- bincode encoding of a `String`. -/
def encodeString (s : String) : List Nat :=
  varintEncode (strBytes s).length ++ strBytes s

/-- bincode encoding of an `AccountInfo { hash, nonce }`. -/
def encodeAccountInfo (a : AccountInfo) : List Nat :=
  encodeString a.hash ++ varintEncode a.nonce

/-- bincode encoding of one map entry. -/
def encodeEntry (e : String × AccountInfo) : List Nat :=
  encodeString e.1 ++ encodeAccountInfo e.2

/-- `Digestable::as_digest`: bincode encoding of the whole state (the
struct wrapper contributes nothing; the map is the only field). -/
def as_digest (s : IdentityStore) : List Nat :=
  varintEncode s.length ++ (s.map encodeEntry).flatten

/-- bincode decoding of a `String`. -/
def decodeString (bs : List Nat) : Option (String × List Nat) :=
  match varintDecode bs with
  | none => none
  | some (len, rest) =>
    if rest.length < len then none
    else
      match utf8Decode (rest.take len) with
      | none => none
      | some cs => some (String.mk cs, rest.drop len)

/-- bincode decoding of an `AccountInfo`. -/
def decodeAccountInfo (bs : List Nat) : Option (AccountInfo × List Nat) :=
  match decodeString bs with
  | none => none
  | some (hash, rest) =>
    match varintDecode rest with
    | none => none
    | some (nonce, rest') => some ({ hash := hash, nonce := nonce }, rest')

/-- bincode decoding of one map entry. -/
def decodeEntry (bs : List Nat) : Option ((String × AccountInfo) × List Nat) :=
  match decodeString bs with
  | none => none
  | some (k, rest) =>
    match decodeAccountInfo rest with
    | none => none
    | some (v, rest') => some ((k, v), rest')

/-- bincode decoding of `n` consecutive map entries. -/
def decodeEntries : Nat → List Nat → Option (List (String × AccountInfo) × List Nat)
  | 0, bs => some ([], bs)
  | n + 1, bs =>
    match decodeEntry bs with
    | none => none
    | some (e, rest) =>
      match decodeEntries n rest with
      | none => none
      | some (es, rest') => some (e :: es, rest')

/-- `bincode::decode_from_slice` for the contract state: read the entry
count, then the entries, and rebuild the `BTreeMap` by inserting them into
an empty map; trailing bytes are returned, not rejected. -/
def decodeStore (bs : List Nat) : Option (IdentityStore × List Nat) :=
  match varintDecode bs with
  | none => none
  | some (len, rest) =>
    match decodeEntries len rest with
    | none => none
    | some (es, rest') =>
      some (es.foldl (fun m e => insertKey m e.1 e.2) ([] : IdentityStore), rest')

/-- `From<sdk::StateDigest>` (ecdsa lib.rs:218-225, oidc lib.rs:132-139,
both verbatim identical): bincode-decode the buffer, `map_err` the failure
to the string `"Could not decode identity state"` — and then `.unwrap()`,
so a decode failure panics with that payload instead of being returned. -/
def fromStateDigest (bs : List Nat) : Outcome IdentityStore :=
  match decodeStore bs with
  | some (s, _) => .ok s
  | none => .panic "Could not decode identity state"

/-- A store that a `BTreeMap<String, AccountInfo>` with `u32` nonces can
hold: keys strictly sorted in byte order, every nonce a `u32`, every
string and the entry count within `usize`/`u64` bounds. -/
def StoreWF (s : IdentityStore) : Prop :=
  List.Pairwise (fun a b => keyLt a.1 b.1 = true) s ∧
  s.length < 18446744073709551616 ∧
  ∀ e ∈ s, e.2.nonce < U32LIM ∧
    (strBytes e.1).length < 18446744073709551616 ∧
    (strBytes e.2.hash).length < 18446744073709551616

instance (s : IdentityStore) : Decidable (StoreWF s) := by
  unfold StoreWF
  exact instDecidableAnd

theorem toLE_length (k n : Nat) : (toLE k n).length = k := by
  induction k generalizing n with
  | zero => rfl
  | succ k ih => simp [toLE, ih]

theorem fromLE_toLE (k n : Nat) (h : n < 256 ^ k) : fromLE (toLE k n) = n := by
  induction k generalizing n with
  | zero =>
    simp only [Nat.pow_zero, Nat.lt_one_iff] at h
    simp [toLE, fromLE, h]
  | succ k ih =>
    have hdiv : n / 256 < 256 ^ k := by
      rw [Nat.div_lt_iff_lt_mul (by norm_num)]
      calc n < 256 ^ (k + 1) := h
        _ = 256 ^ k * 256 := by ring
    simp only [toLE, fromLE, ih (n / 256) hdiv]
    omega

theorem take_append_exact {α : Type} (l r : List α) : (l ++ r).take l.length = l := by
  simp

theorem drop_append_exact {α : Type} (l r : List α) : (l ++ r).drop l.length = r := by
  simp

theorem readLE_append (k : Nat) (p rest : List Nat) (hp : p.length = k) :
    readLE k (p ++ rest) = some (fromLE p, rest) := by
  subst hp
  rw [readLE, if_neg (by simp), take_append_exact, drop_append_exact]

theorem readLE_exact (k n : Nat) (rest : List Nat) (h : n < 256 ^ k) :
    readLE k (toLE k n ++ rest) = some (n, rest) := by
  rw [readLE_append k (toLE k n) rest (toLE_length k n), fromLE_toLE k n h]

theorem varintDecode_encode (n : Nat) (rest : List Nat)
    (h : n < 18446744073709551616) :
    varintDecode (varintEncode n ++ rest) = some (n, rest) := by
  rw [varintEncode]
  by_cases h1 : n < 251
  · rw [if_pos h1]
    simp [varintDecode, h1]
  · rw [if_neg h1]
    by_cases h2 : n < 65536
    · rw [if_pos h2]
      simp only [List.cons_append, varintDecode, if_neg (by omega : ¬ (251 : Nat) < 251),
        if_pos rfl]
      exact readLE_exact 2 n rest (by norm_num at *; omega)
    · rw [if_neg h2]
      by_cases h3 : n < 4294967296
      · rw [if_pos h3]
        simp only [List.cons_append, varintDecode, if_neg (by omega : ¬ (252 : Nat) < 251),
          if_neg (by omega : ¬ (252 : Nat) = 251), if_pos rfl]
        exact readLE_exact 4 n rest (by norm_num at *; omega)
      · rw [if_neg h3]
        simp only [List.cons_append, varintDecode, if_neg (by omega : ¬ (253 : Nat) < 251),
          if_neg (by omega : ¬ (253 : Nat) = 251), if_neg (by omega : ¬ (253 : Nat) = 252),
          if_pos rfl]
        exact readLE_exact 8 n rest (by norm_num at *; omega)

theorem charToNatLt (c : Char) : c.toNat < 1114112 := by
  have h : c.val.toNat.isValidChar := c.valid
  have he : c.toNat = c.val.toNat := rfl
  simp only [Nat.isValidChar] at h
  rcases h with h | ⟨h1, h2⟩ <;> omega

theorem utf8DecodeChar_encode (c : Char) (bs : List Nat) :
    utf8DecodeChar (utf8EncodeChar c ++ bs) = some (c, bs) := by
  have hlt := charToNatLt c
  have hofnat := Char.ofNat_toNat c
  simp only [utf8EncodeChar]
  by_cases h1 : c.toNat < 128
  · rw [if_pos h1]
    simp only [List.cons_append, List.nil_append, utf8DecodeChar]
    rw [if_pos h1, hofnat]
  · rw [if_neg h1]
    by_cases h2 : c.toNat < 2048
    · rw [if_pos h2]
      simp only [List.cons_append, List.nil_append, utf8DecodeChar]
      rw [if_neg (by omega), if_neg (by omega), if_pos (by omega),
        if_pos ⟨by omega, by omega⟩]
      have hv : (192 + c.toNat / 64 - 192) * 64 + (128 + c.toNat % 64 - 128) = c.toNat := by
        omega
      rw [hv, hofnat]
    · rw [if_neg h2]
      by_cases h3 : c.toNat < 65536
      · rw [if_pos h3]
        simp only [List.cons_append, List.nil_append, utf8DecodeChar]
        rw [if_neg (by omega), if_neg (by omega), if_neg (by omega), if_pos (by omega),
          if_pos ⟨⟨by omega, by omega⟩, by omega, by omega⟩]
        have hv : (224 + c.toNat / 4096 - 224) * 4096 + (128 + c.toNat / 64 % 64 - 128) * 64 +
            (128 + c.toNat % 64 - 128) = c.toNat := by
          omega
        rw [hv, hofnat]
      · rw [if_neg h3]
        simp only [List.cons_append, List.nil_append, utf8DecodeChar]
        rw [if_neg (by omega), if_neg (by omega), if_neg (by omega), if_neg (by omega),
          if_pos (by omega),
          if_pos ⟨⟨by omega, by omega⟩, ⟨by omega, by omega⟩, by omega, by omega⟩]
        have hv : (240 + c.toNat / 262144 - 240) * 262144 +
            (128 + c.toNat / 4096 % 64 - 128) * 4096 +
            (128 + c.toNat / 64 % 64 - 128) * 64 + (128 + c.toNat % 64 - 128) = c.toNat := by
          omega
        rw [hv, hofnat]

theorem utf8EncodeChar_ne_nil (c : Char) : utf8EncodeChar c ≠ [] := by
  simp only [utf8EncodeChar]
  split
  · simp
  · split
    · simp
    · split <;> simp

theorem utf8DecodeAux_encode (cs : List Char) (fuel : Nat)
    (h : (utf8ListBytes cs).length ≤ fuel) :
    utf8DecodeAux fuel (utf8ListBytes cs) = some cs := by
  induction cs generalizing fuel with
  | nil => cases fuel <;> simp [utf8ListBytes, utf8DecodeAux]
  | cons c cs ih =>
    have hne := utf8EncodeChar_ne_nil c
    have hexp : utf8ListBytes (c :: cs) = utf8EncodeChar c ++ utf8ListBytes cs := by
      simp [utf8ListBytes]
    rw [hexp] at h ⊢
    obtain ⟨b, bs, hb⟩ : ∃ b bs, utf8EncodeChar c = b :: bs := by
      cases hcc : utf8EncodeChar c with
      | nil => exact absurd hcc hne
      | cons b bs => exact ⟨b, bs, rfl⟩
    have hlen : 1 ≤ (utf8EncodeChar c ++ utf8ListBytes cs).length := by
      rw [hb]
      simp
    obtain ⟨fuel', rfl⟩ : ∃ fuel', fuel = fuel' + 1 := by
      cases fuel with
      | zero => omega
      | succ f => exact ⟨f, rfl⟩
    have hfuel : (utf8ListBytes cs).length ≤ fuel' := by
      rw [hb] at h
      simp only [List.length_cons, List.length_append] at h
      omega
    have hdec : utf8DecodeChar (b :: (bs ++ utf8ListBytes cs)) = some (c, utf8ListBytes cs) := by
      rw [← List.cons_append, ← hb]
      exact utf8DecodeChar_encode c (utf8ListBytes cs)
    rw [hb, List.cons_append, utf8DecodeAux, hdec]
    · simp [ih fuel' hfuel]
    · exact fun hx => absurd hx (List.cons_ne_nil _ _)

theorem utf8Decode_encode (cs : List Char) :
    utf8Decode (utf8ListBytes cs) = some cs :=
  utf8DecodeAux_encode cs (utf8ListBytes cs).length le_rfl

theorem stringMk_data (s : String) : String.mk s.data = s := by
  cases s
  rfl

theorem decodeString_encode (s : String) (rest : List Nat)
    (h : (strBytes s).length < 18446744073709551616) :
    decodeString (encodeString s ++ rest) = some (s, rest) := by
  have h1 := varintDecode_encode (strBytes s).length (strBytes s ++ rest) h
  have h2 : ¬ (strBytes s ++ rest).length < (strBytes s).length := by simp
  have h3 : utf8Decode (strBytes s) = some s.data := utf8Decode_encode s.data
  rw [encodeString, List.append_assoc, decodeString, h1]
  simp [h2, take_append_exact, drop_append_exact, h3, stringMk_data]

theorem decodeAccountInfo_encode (a : AccountInfo) (rest : List Nat)
    (hh : (strBytes a.hash).length < 18446744073709551616) (hn : a.nonce < U32LIM) :
    decodeAccountInfo (encodeAccountInfo a ++ rest) = some (a, rest) := by
  have hn' : a.nonce < 18446744073709551616 := by
    unfold U32LIM at hn
    omega
  rw [encodeAccountInfo, List.append_assoc, decodeAccountInfo,
    decodeString_encode a.hash _ hh]
  simp [varintDecode_encode a.nonce rest hn']

theorem decodeEntry_encode (e : String × AccountInfo) (rest : List Nat)
    (hk : (strBytes e.1).length < 18446744073709551616)
    (hh : (strBytes e.2.hash).length < 18446744073709551616)
    (hn : e.2.nonce < U32LIM) :
    decodeEntry (encodeEntry e ++ rest) = some (e, rest) := by
  rw [encodeEntry, List.append_assoc, decodeEntry, decodeString_encode e.1 _ hk]
  simp [decodeAccountInfo_encode e.2 rest hh hn]

theorem decodeEntries_encode (l : List (String × AccountInfo)) (rest : List Nat)
    (hb : ∀ e ∈ l, e.2.nonce < U32LIM ∧
      (strBytes e.1).length < 18446744073709551616 ∧
      (strBytes e.2.hash).length < 18446744073709551616) :
    decodeEntries l.length ((l.map encodeEntry).flatten ++ rest) = some (l, rest) := by
  induction l generalizing rest with
  | nil => simp [decodeEntries]
  | cons e l ih =>
    obtain ⟨hn, hk, hh⟩ := hb e (by simp)
    simp only [List.map_cons, List.flatten_cons, List.length_cons, List.append_assoc]
    rw [decodeEntries, decodeEntry_encode e _ hk hh hn]
    simp [ih rest (fun e' he' => hb e' (by simp [he']))]

theorem charListLt_asymm (a : List Char) :
    ∀ b : List Char, charListLt a b = true → charListLt b a = false := by
  induction a with
  | nil =>
    intro b h
    cases b with
    | nil => simp [charListLt] at h
    | cons y ys => simp [charListLt]
  | cons x xs ih =>
    intro b h
    cases b with
    | nil => simp [charListLt] at h
    | cons y ys =>
      simp only [charListLt] at h ⊢
      by_cases hxy : x < y
      · rw [if_neg (lt_asymm hxy), if_pos hxy]
      · rw [if_neg hxy] at h
        by_cases hyx : y < x
        · rw [if_pos hyx] at h
          simp at h
        · rw [if_neg hyx] at h
          rw [if_neg hyx, if_neg hxy]
          exact ih ys h

theorem keyLt_asymm {a b : String} (h : keyLt a b = true) : keyLt b a = false :=
  charListLt_asymm a.data b.data h

theorem insertKey_append_of_lt (acc : IdentityStore) (k : String) (v : AccountInfo)
    (h : ∀ e ∈ acc, keyLt e.1 k = true) :
    insertKey acc k v = acc ++ [(k, v)] := by
  induction acc with
  | nil => rfl
  | cons e rest ih =>
    obtain ⟨k₀, v₀⟩ := e
    have h₀ : keyLt k₀ k = true := h (k₀, v₀) (by simp)
    have hnlt : ¬ keyLt k k₀ = true := by
      rw [keyLt_asymm h₀]
      simp
    have hne : ¬ k = k₀ := Ne.symm (keyLt_ne h₀)
    simp only [insertKey, if_neg hnlt, if_neg hne, List.cons_append]
    rw [ih (fun e' he' => h e' (by simp [he']))]

theorem foldl_insertKey_sorted (l : List (String × AccountInfo)) :
    ∀ acc : IdentityStore,
      List.Pairwise (fun a b => keyLt a.1 b.1 = true) (acc ++ l) →
      l.foldl (fun m e => insertKey m e.1 e.2) acc = acc ++ l := by
  induction l with
  | nil =>
    intro acc _
    simp
  | cons e l ih =>
    intro acc h
    have hlt : ∀ e' ∈ acc, keyLt e'.1 e.1 = true := by
      intro e' he'
      exact (List.pairwise_append.mp h).2.2 e' he' e (by simp)
    simp only [List.foldl_cons]
    have he : insertKey acc e.1 e.2 = acc ++ [e] := insertKey_append_of_lt acc e.1 e.2 hlt
    rw [he]
    have hassoc : acc ++ e :: l = (acc ++ [e]) ++ l := by simp
    rw [hassoc] at h ⊢
    exact ih (acc ++ [e]) h

/-! ## Transition-shape lemmas -/

theorem ecdsa_register_shape (vs : String → String → String → Outcome Bool)
    (sha256hex : String → String) (ids : IdentityStore) (k sig : String) :
    (Ecdsa.register_identity vs sha256hex ids k sig).2 = ids ∨
    (Ecdsa.register_identity vs sha256hex ids k sig).2 =
      insertKey ids k { hash := sha256hex k, nonce := 0 } := by
  unfold Ecdsa.register_identity
  split
  · left
    rfl
  · left
    rfl
  · split
    · left
      rfl
    · split
      · right
        rfl
      · right
        rfl

theorem ecdsa_verify_shape (vs : String → String → String → Outcome Bool)
    (sha256hex : String → String) (ids : IdentityStore) (k : String) (n : Nat)
    (blobs : List Ecdsa.Blob) (sig : String) :
    (Ecdsa.verify_identity vs sha256hex ids k n blobs sig).2 = ids ∨
    ((Ecdsa.verify_identity vs sha256hex ids k n blobs sig).1 = .ok true ∧
      ∃ st, lookupKey ids k = some st ∧
        (Ecdsa.verify_identity vs sha256hex ids k n blobs sig).2 =
          updateKey ids k { hash := st.hash, nonce := (st.nonce + 1) % U32LIM }) := by
  unfold Ecdsa.verify_identity
  split
  next => left; rfl
  next st hl =>
    split
    next => left; rfl
    next =>
      split
      next => left; rfl
      next => left; rfl
      next valid hvs =>
        split
        next => left; rfl
        next =>
          split
          next => left; rfl
          next => right; exact ⟨rfl, st, hl, rfl⟩

theorem ecdsa_verify_false_hash (vs : String → String → String → Outcome Bool)
    (sha256hex : String → String) (ids : IdentityStore) (k : String) (n : Nat)
    (blobs : List Ecdsa.Blob) (sig : String) :
    (Ecdsa.verify_identity vs sha256hex ids k n blobs sig).1 = .ok false →
    ∃ st, lookupKey ids k = some st ∧ st.hash ≠ sha256hex k := by
  unfold Ecdsa.verify_identity
  split
  next => intro h; simp at h
  next st hl =>
    split
    next => intro h; simp at h
    next =>
      split
      next => intro h; simp at h
      next => intro h; simp at h
      next valid hvs =>
        split
        next => intro h; simp at h
        next =>
          split
          next hh => intro _; exact ⟨st, hl, hh⟩
          next => intro h; simp at h

theorem oidc_register_shape
    (jv : String → Oidc.JwkPublicKey → Oidc.OpenIdContext → Outcome Oidc.Claims)
    (sha256hex : String → String) (ids : IdentityStore) (account : String)
    (context : Oidc.OpenIdContext) (jwk : Oidc.JwkPublicKey) (input : String) :
    (Oidc.register_identity jv sha256hex ids account context jwk input).2 = ids ∨
    ∃ data, jv input jwk context = .ok data ∧
      (Oidc.register_identity jv sha256hex ids account context jwk input).2 =
        insertKey ids account
          { hash := sha256hex (data.sub ++ ":" ++ data.iss), nonce := 0 } := by
  unfold Oidc.register_identity
  split
  next => left; rfl
  next => left; rfl
  next data hjv =>
    split
    · right
      exact ⟨data, hjv, rfl⟩
    · right
      exact ⟨data, hjv, rfl⟩

theorem oidc_verify_shape
    (jv : String → Oidc.JwkPublicKey → Oidc.OpenIdContext → Outcome Oidc.Claims)
    (sha256hex : String → String) (ids : IdentityStore) (account : String) (n : Nat)
    (context : Oidc.OpenIdContext) (jwk : Oidc.JwkPublicKey) (input : String) :
    (Oidc.verify_identity jv sha256hex ids account n context jwk input).2 = ids ∨
    ((Oidc.verify_identity jv sha256hex ids account n context jwk input).1 = .ok true ∧
      ∃ st, lookupKey ids account = some st ∧
        (Oidc.verify_identity jv sha256hex ids account n context jwk input).2 =
          updateKey ids account { hash := st.hash, nonce := (st.nonce + 1) % U32LIM }) := by
  unfold Oidc.verify_identity
  split
  next => left; rfl
  next st hl =>
    split
    next => left; rfl
    next =>
      split
      next => left; rfl
      next => left; rfl
      next data hjv =>
        split
        next => left; rfl
        next => right; exact ⟨rfl, st, hl, rfl⟩

/-! ## Claims -/

/-- C1 (amended): on both contracts, a second `Register` for an
already-present account id fails with the `AlreadyRegistered` error
("Identity already exists"), but — because the source calls
`identities.insert(..)` before testing for a previous binding — the stored
record is first overwritten with the freshly computed credential hash and
nonce 0; the previous record (in particular its nonce) is not preserved in
the store the method leaves behind. -/
theorem C1_second_register_overwrites :
    (∀ (vs : String → String → String → Outcome Bool) (sha256hex : String → String)
        (ids : IdentityStore) (k sig : String) (old : AccountInfo),
      lookupKey ids k = some old →
      vs k sig "Hyle Registration" = .ok true →
      Ecdsa.register_identity vs sha256hex ids k sig =
        (.err "Identity already exists",
          insertKey ids k { hash := sha256hex k, nonce := 0 })) ∧
    (∀ (jv : String → Oidc.JwkPublicKey → Oidc.OpenIdContext → Outcome Oidc.Claims)
        (sha256hex : String → String) (ids : IdentityStore) (account : String)
        (context : Oidc.OpenIdContext) (jwk : Oidc.JwkPublicKey) (input : String)
        (old : AccountInfo) (data : Oidc.Claims),
      lookupKey ids account = some old →
      jv input jwk context = .ok data →
      Oidc.register_identity jv sha256hex ids account context jwk input =
        (.err "Identity already exists",
          insertKey ids account
            { hash := sha256hex (data.sub ++ ":" ++ data.iss), nonce := 0 })) := by
  constructor
  · intro vs sha256hex ids k sig old hl hvs
    simp [Ecdsa.register_identity, hvs, hl]
  · intro jv sha256hex ids account context jwk input old data hl hjv
    simp [Oidc.register_identity, hjv, hl]

/-- C1 witness: concrete second registrations on both contracts. -/
theorem C1_second_register_overwrites_witness :
    Ecdsa.register_identity (fun _ _ _ => .ok true) (fun _ => "h")
        [("a", { hash := "h", nonce := 2 })] "a" "s" =
      (.err "Identity already exists",
        insertKey [("a", { hash := "h", nonce := 2 })] "a" { hash := "h", nonce := 0 }) ∧
    Oidc.register_identity
        (fun _ _ _ => .ok { sub := "s", email := "", exp := 0, aud := "x", iss := "i" })
        (fun _ => "h") [("a", { hash := "h", nonce := 2 })] "a"
        { issuer := "i", audience := "x" } { n := "", e := "" } "t" =
      (.err "Identity already exists",
        insertKey [("a", { hash := "h", nonce := 2 })] "a" { hash := "h", nonce := 0 }) :=
  ⟨C1_second_register_overwrites.1 (fun _ _ _ => .ok true) (fun _ => "h")
      [("a", { hash := "h", nonce := 2 })] "a" "s" { hash := "h", nonce := 2 } rfl rfl,
    C1_second_register_overwrites.2
      (fun _ _ _ => .ok { sub := "s", email := "", exp := 0, aud := "x", iss := "i" })
      (fun _ => "h") [("a", { hash := "h", nonce := 2 })] "a"
      { issuer := "i", audience := "x" } { n := "", e := "" } "t"
      { hash := "h", nonce := 2 }
      { sub := "s", email := "", exp := 0, aud := "x", iss := "i" } rfl rfl⟩

/-- C1 counterexample: account "k" is registered with nonce 5; a second
`Register` returns the `AlreadyRegistered` error, yet the stored record
comes out as `{hash, nonce: 0}` — the nonce was not left as it was. -/
theorem C1_counterexample :
    Ecdsa.register_identity (fun _ _ _ => .ok true) (fun s => s)
        [("k", { hash := "k", nonce := 5 })] "k" "sig" =
      (.err "Identity already exists", [("k", { hash := "k", nonce := 0 })]) ∧
    ({ hash := "k", nonce := 0 } : AccountInfo) ≠ { hash := "k", nonce := 5 } := by
  exact ⟨rfl, by decide⟩

/-- C2 (confirmed): on both contracts, a `Verify` whose nonce differs from
the stored nonce in either direction fails with the `InvalidNonce` error
("Invalid nonce") and returns the store unchanged; acceptance is strict
equality. -/
theorem C2_nonce_strict_equality :
    (∀ (vs : String → String → String → Outcome Bool) (sha256hex : String → String)
        (ids : IdentityStore) (k : String) (n : Nat) (blobs : List Ecdsa.Blob)
        (sig : String) (st : AccountInfo),
      lookupKey ids k = some st → n < U32LIM → n ≠ st.nonce →
      Ecdsa.verify_identity vs sha256hex ids k n blobs sig = (.err "Invalid nonce", ids)) ∧
    (∀ (jv : String → Oidc.JwkPublicKey → Oidc.OpenIdContext → Outcome Oidc.Claims)
        (sha256hex : String → String) (ids : IdentityStore) (account : String)
        (n : Nat) (context : Oidc.OpenIdContext) (jwk : Oidc.JwkPublicKey)
        (input : String) (st : AccountInfo),
      lookupKey ids account = some st → n < U32LIM → n ≠ st.nonce →
      Oidc.verify_identity jv sha256hex ids account n context jwk input =
        (.err "Invalid nonce", ids)) := by
  constructor
  · intro vs sha256hex ids k n blobs sig st hl _ hne
    simp [Ecdsa.verify_identity, hl, hne]
  · intro jv sha256hex ids account n context jwk input st hl _ hne
    simp [Oidc.verify_identity, hl, hne]

/-- C2 witness: a stale nonce (3 < 5) on the ECDSA contract and a
skipped-ahead nonce (9 > 5) on the OIDC contract are both rejected. -/
theorem C2_nonce_strict_equality_witness :
    Ecdsa.verify_identity (fun _ _ _ => .ok true) (fun s => s)
        [("a", { hash := "a", nonce := 5 })] "a" 3 [] "s" =
      (.err "Invalid nonce", [("a", { hash := "a", nonce := 5 })]) ∧
    Oidc.verify_identity
        (fun _ _ _ => .ok { sub := "s", email := "", exp := 0, aud := "x", iss := "i" })
        (fun s => s) [("a", { hash := "a", nonce := 5 })] "a" 9
        { issuer := "i", audience := "x" } { n := "", e := "" } "t" =
      (.err "Invalid nonce", [("a", { hash := "a", nonce := 5 })]) :=
  ⟨C2_nonce_strict_equality.1 (fun _ _ _ => .ok true) (fun s => s)
      [("a", { hash := "a", nonce := 5 })] "a" 3 [] "s" { hash := "a", nonce := 5 }
      rfl (by decide) (by decide),
    C2_nonce_strict_equality.2
      (fun _ _ _ => .ok { sub := "s", email := "", exp := 0, aud := "x", iss := "i" })
      (fun s => s) [("a", { hash := "a", nonce := 5 })] "a" 9
      { issuer := "i", audience := "x" } { n := "", e := "" } "t"
      { hash := "a", nonce := 5 } rfl (by decide) (by decide)⟩

/-- C3 counterexample: at stored nonce `u32::MAX` a fully successful
`Verify` returns true but stores nonce 0 (the u32 wrapping of
`old_nonce + 1`), not `old_nonce + 1`. -/
theorem C3_counterexample :
    Ecdsa.verify_identity (fun _ _ _ => .ok true) (fun s => s)
        [("k", { hash := "k", nonce := 4294967295 })] "k" 4294967295 [] "sig" =
      (.ok true, [("k", { hash := "k", nonce := 0 })]) ∧
    (0 : Nat) ≠ 4294967295 + 1 := by
  exact ⟨rfl, by decide⟩

/-- C3 (amended): a fully successful `Verify` returns true and stores
`(old_nonce + 1) % 2^32`, which equals `old_nonce + 1` whenever that sum
fits a u32 (always except at `old_nonce = u32::MAX`); and on both
contracts no operation other than a fully successful `Verify` ever raises
a stored nonce — `Register` writes nonce 0, and every failing or false
`Verify` leaves the store as it was. -/
theorem C3_nonce_increment :
    (∀ (vs : String → String → String → Outcome Bool) (sha256hex : String → String)
        (ids : IdentityStore) (k : String) (n : Nat) (blobs : List Ecdsa.Blob)
        (sig : String) (st : AccountInfo),
      lookupKey ids k = some st → n = st.nonce →
      vs k sig (Ecdsa.verifyMessage n blobs) = .ok true → st.hash = sha256hex k →
      Ecdsa.verify_identity vs sha256hex ids k n blobs sig =
        (.ok true, updateKey ids k { hash := st.hash, nonce := (st.nonce + 1) % U32LIM }) ∧
      (st.nonce + 1 < U32LIM → (st.nonce + 1) % U32LIM = st.nonce + 1)) ∧
    (∀ (jv : String → Oidc.JwkPublicKey → Oidc.OpenIdContext → Outcome Oidc.Claims)
        (sha256hex : String → String) (ids : IdentityStore) (account : String)
        (n : Nat) (context : Oidc.OpenIdContext) (jwk : Oidc.JwkPublicKey)
        (input : String) (st : AccountInfo) (data : Oidc.Claims),
      lookupKey ids account = some st → n = st.nonce →
      jv input jwk context = .ok data →
      st.hash = sha256hex (data.sub ++ ":" ++ data.iss) →
      Oidc.verify_identity jv sha256hex ids account n context jwk input =
        (.ok true,
          updateKey ids account { hash := st.hash, nonce := (st.nonce + 1) % U32LIM }) ∧
      (st.nonce + 1 < U32LIM → (st.nonce + 1) % U32LIM = st.nonce + 1)) ∧
    (∀ (vs : String → String → String → Outcome Bool) (sha256hex : String → String)
        (ids : IdentityStore) (k sig k' : String) (a b : AccountInfo),
      lookupKey ids k' = some a →
      lookupKey (Ecdsa.register_identity vs sha256hex ids k sig).2 k' = some b →
      b.nonce ≤ a.nonce) ∧
    (∀ (vs : String → String → String → Outcome Bool) (sha256hex : String → String)
        (ids : IdentityStore) (k : String) (n : Nat) (blobs : List Ecdsa.Blob)
        (sig k' : String) (a b : AccountInfo),
      lookupKey ids k' = some a →
      lookupKey (Ecdsa.verify_identity vs sha256hex ids k n blobs sig).2 k' = some b →
      b.nonce = a.nonce ∨
        (k' = k ∧ b.nonce = (a.nonce + 1) % U32LIM ∧
          (Ecdsa.verify_identity vs sha256hex ids k n blobs sig).1 = .ok true)) ∧
    (∀ (jv : String → Oidc.JwkPublicKey → Oidc.OpenIdContext → Outcome Oidc.Claims)
        (sha256hex : String → String) (ids : IdentityStore) (account : String)
        (context : Oidc.OpenIdContext) (jwk : Oidc.JwkPublicKey) (input k' : String)
        (a b : AccountInfo),
      lookupKey ids k' = some a →
      lookupKey (Oidc.register_identity jv sha256hex ids account context jwk input).2 k' =
        some b →
      b.nonce ≤ a.nonce) ∧
    (∀ (jv : String → Oidc.JwkPublicKey → Oidc.OpenIdContext → Outcome Oidc.Claims)
        (sha256hex : String → String) (ids : IdentityStore) (account : String)
        (n : Nat) (context : Oidc.OpenIdContext) (jwk : Oidc.JwkPublicKey)
        (input k' : String) (a b : AccountInfo),
      lookupKey ids k' = some a →
      lookupKey (Oidc.verify_identity jv sha256hex ids account n context jwk input).2 k' =
        some b →
      b.nonce = a.nonce ∨
        (k' = account ∧ b.nonce = (a.nonce + 1) % U32LIM ∧
          (Oidc.verify_identity jv sha256hex ids account n context jwk input).1 =
            .ok true)) := by
  refine ⟨?_, ?_, ?_, ?_, ?_, ?_⟩
  · intro vs sha256hex ids k n blobs sig st hl hn hvs hh
    refine ⟨?_, fun h => Nat.mod_eq_of_lt h⟩
    subst hn
    simp [Ecdsa.verify_identity, hl, hvs, ← hh]
  · intro jv sha256hex ids account n context jwk input st data hl hn hjv hh
    refine ⟨?_, fun h => Nat.mod_eq_of_lt h⟩
    subst hn
    simp [Oidc.verify_identity, hl, hjv, ← hh]
  · intro vs sha256hex ids k sig k' a b ha hb
    rcases ecdsa_register_shape vs sha256hex ids k sig with hs | hs
    · rw [hs, ha] at hb
      injection hb with h
      rw [← h]
    · rw [hs, lookupKey_insertKey] at hb
      by_cases hk : k' = k
      · rw [if_pos hk] at hb
        injection hb with h
        rw [← h]
        exact Nat.zero_le _
      · rw [if_neg hk, ha] at hb
        injection hb with h
        rw [← h]
  · intro vs sha256hex ids k n blobs sig k' a b ha hb
    rcases ecdsa_verify_shape vs sha256hex ids k n blobs sig with hs | ⟨hok, st, hl, hs⟩
    · rw [hs, ha] at hb
      injection hb with h
      left
      rw [← h]
    · rw [hs, lookupKey_updateKey] at hb
      by_cases hk : k' = k
      · subst hk
        rw [if_pos ⟨rfl, by rw [hl]; rfl⟩] at hb
        rw [hl] at ha
        injection ha with ha'
        injection hb with hb'
        right
        refine ⟨rfl, ?_, hok⟩
        rw [← hb', ← ha']
      · rw [if_neg (fun hc => hk hc.1), ha] at hb
        injection hb with h
        left
        rw [← h]
  · intro jv sha256hex ids account context jwk input k' a b ha hb
    rcases oidc_register_shape jv sha256hex ids account context jwk input with
      hs | ⟨data, _, hs⟩
    · rw [hs, ha] at hb
      injection hb with h
      rw [← h]
    · rw [hs, lookupKey_insertKey] at hb
      by_cases hk : k' = account
      · rw [if_pos hk] at hb
        injection hb with h
        rw [← h]
        exact Nat.zero_le _
      · rw [if_neg hk, ha] at hb
        injection hb with h
        rw [← h]
  · intro jv sha256hex ids account n context jwk input k' a b ha hb
    rcases oidc_verify_shape jv sha256hex ids account n context jwk input with
      hs | ⟨hok, st, hl, hs⟩
    · rw [hs, ha] at hb
      injection hb with h
      left
      rw [← h]
    · rw [hs, lookupKey_updateKey] at hb
      by_cases hk : k' = account
      · subst hk
        rw [if_pos ⟨rfl, by rw [hl]; rfl⟩] at hb
        rw [hl] at ha
        injection ha with ha'
        injection hb with hb'
        right
        refine ⟨rfl, ?_, hok⟩
        rw [← hb', ← ha']
      · rw [if_neg (fun hc => hk hc.1), ha] at hb
        injection hb with h
        left
        rw [← h]

/-- C3 witness: a concrete successful verify at nonce 3 stores nonce 4. -/
theorem C3_nonce_increment_witness :
    (Ecdsa.verify_identity (fun _ _ _ => .ok true) (fun s => s)
        [("a", { hash := "a", nonce := 3 })] "a" 3 [] "s" =
      (.ok true,
        updateKey [("a", { hash := "a", nonce := 3 })] "a"
          { hash := "a", nonce := (3 + 1) % U32LIM }) ∧
    ((3 : Nat) + 1 < U32LIM → (3 + 1) % U32LIM = (3 : Nat) + 1)) :=
  C3_nonce_increment.1 (fun _ _ _ => .ok true) (fun s => s)
    [("a", { hash := "a", nonce := 3 })] "a" 3 [] "s" { hash := "a", nonce := 3 }
    rfl rfl rfl rfl

/-- C4 counterexample: with contract name "bar", the account "keybar" does
not end with the dot-prefixed suffix ".bar", yet the ECDSA dispatcher
accepts it (the check is `ends_with(contract_name)`, dot not included) and
registers under the stripped key "key" instead of failing with the
invalid-account-format error. -/
theorem C4_counterexample :
    (".bar" : String).data.isSuffixOf ("keybar" : String).data = false ∧
    Ecdsa.execute_action (fun _ _ _ => .ok true) (fun s => s) []
        (.RegisterIdentity "sig") "bar" "keybar" [] =
      .ok ("Identity registered", [("key", { hash := "key", nonce := 0 })]) := by
  exact ⟨rfl, rfl⟩

/-- C4 (amended): the ECDSA dispatcher fails with the
invalid-account-format error exactly when the account does not end with
the contract name — the dot of the error text is not part of the check —
and no state is produced then; when the check passes, the credential key
is the account with every trailing repetition of the contract name and
then every trailing dot removed (`stripAccount`).  The OIDC dispatcher
applies no account-format rule at all: any account string registers
as-is. -/
theorem C4_account_binding :
    (∀ (vs : String → String → String → Outcome Bool) (sha256hex : String → String)
        (ids : IdentityStore) (action : Ecdsa.IdentityAction)
        (contract_name account : String) (blobs : List Ecdsa.Blob),
      contract_name.data.isSuffixOf account.data = false →
      Ecdsa.execute_action vs sha256hex ids action contract_name account blobs =
        .err ("Invalid account extension. '." ++ contract_name ++ "' expected.")) ∧
    (∀ (vs : String → String → String → Outcome Bool) (sha256hex : String → String)
        (contract_name account sig : String),
      contract_name.data.isSuffixOf account.data = true →
      vs (Ecdsa.stripAccount account contract_name) sig "Hyle Registration" = .ok true →
      Ecdsa.execute_action vs sha256hex [] (.RegisterIdentity sig)
          contract_name account [] =
        .ok ("Identity registered",
          [(Ecdsa.stripAccount account contract_name,
            { hash := sha256hex (Ecdsa.stripAccount account contract_name), nonce := 0 })])) ∧
    (∀ (jv : String → Oidc.JwkPublicKey → Oidc.OpenIdContext → Outcome Oidc.Claims)
        (sha256hex : String → String) (account : String) (context : Oidc.OpenIdContext)
        (jwk : Oidc.JwkPublicKey) (input : String) (data : Oidc.Claims),
      jv input jwk context = .ok data →
      Oidc.execute_action jv sha256hex [] (.RegisterIdentity account context jwk) input =
        .ok ("Successfully registered identity for account: " ++ account,
          [(account,
            { hash := sha256hex (data.sub ++ ":" ++ data.iss), nonce := 0 })])) := by
  refine ⟨?_, ?_, ?_⟩
  · intro vs sha256hex ids action contract_name account blobs h
    simp [Ecdsa.execute_action, h]
  · intro vs sha256hex contract_name account sig h hvs
    simp [Ecdsa.execute_action, h, Ecdsa.register_identity, hvs, lookupKey, insertKey]
  · intro jv sha256hex account context jwk input data hjv
    simp [Oidc.execute_action, Oidc.register_identity, hjv, lookupKey, insertKey]

/-- C4 witness: "nope" is rejected for contract "bar"; "key.bar" passes
and registers under "key"; the OIDC dispatcher registers the dot-less
account "whatever" without complaint. -/
theorem C4_account_binding_witness :
    Ecdsa.execute_action (fun _ _ _ => .ok true) (fun s => s) []
        (.RegisterIdentity "sig") "bar" "nope" [] =
      .err ("Invalid account extension. '." ++ "bar" ++ "' expected.") ∧
    Ecdsa.execute_action (fun _ _ _ => .ok true) (fun s => s) []
        (.RegisterIdentity "sig") "bar" "key.bar" [] =
      .ok ("Identity registered",
        [(Ecdsa.stripAccount "key.bar" "bar",
          { hash := (fun s => s) (Ecdsa.stripAccount "key.bar" "bar"), nonce := 0 })]) ∧
    Oidc.execute_action
        (fun _ _ _ => .ok { sub := "s", email := "", exp := 0, aud := "x", iss := "i" })
        (fun s => s) [] (.RegisterIdentity "whatever"
          { issuer := "i", audience := "x" } { n := "", e := "" }) "t" =
      .ok ("Successfully registered identity for account: " ++ "whatever",
        [("whatever", { hash := (fun s => s) ("s" ++ ":" ++ "i"), nonce := 0 })]) :=
  ⟨C4_account_binding.1 (fun _ _ _ => .ok true) (fun s => s) []
      (.RegisterIdentity "sig") "bar" "nope" [] rfl,
    C4_account_binding.2.1 (fun _ _ _ => .ok true) (fun s => s) "bar" "key.bar" "sig"
      rfl rfl,
    C4_account_binding.2.2
      (fun _ _ _ => .ok { sub := "s", email := "", exp := 0, aud := "x", iss := "i" })
      (fun s => s) "whatever" { issuer := "i", audience := "x" } { n := "", e := "" } "t"
      { sub := "s", email := "", exp := 0, aud := "x", iss := "i" } rfl⟩

/-- C5 counterexample: a nonce-correct, proof-valid OIDC verify whose
recomputed hash differs from the stored hash returns `Ok(false)` but does
NOT consume the call — the stored nonce stays 3 — and the dispatcher turns
the false result into a failed execution rather than a successful
negative response. -/
theorem C5_counterexample :
    Oidc.verify_identity
        (fun _ _ _ => .ok { sub := "s", email := "", exp := 0, aud := "x", iss := "i" })
        (fun s => s) [("a", { hash := "h", nonce := 3 })] "a" 3
        { issuer := "i", audience := "x" } { n := "", e := "" } "t" =
      (.ok false, [("a", { hash := "h", nonce := 3 })]) ∧
    Oidc.execute_action
        (fun _ _ _ => .ok { sub := "s", email := "", exp := 0, aud := "x", iss := "i" })
        (fun s => s) [("a", { hash := "h", nonce := 3 })]
        (.VerifyIdentity "a" 3 { issuer := "i", audience := "x" } { n := "", e := "" }) "t" =
      .err "Identity verification failed for account: a" := by
  exact ⟨rfl, rfl⟩

/-- C5 (amended): a credential-hash mismatch on an otherwise valid OIDC
verify yields `Ok(false)` from `verify_identity` with the store — nonce
included — unchanged (the call is not consumed); the dispatcher maps the
false result to the failure message "Identity verification failed for
account: ..", distinct from the "Error verifying identity: .." wrapping
of execution errors, but a failure all the same. -/
theorem C5_false_result :
    (∀ (jv : String → Oidc.JwkPublicKey → Oidc.OpenIdContext → Outcome Oidc.Claims)
        (sha256hex : String → String) (ids : IdentityStore) (account : String)
        (n : Nat) (context : Oidc.OpenIdContext) (jwk : Oidc.JwkPublicKey)
        (input : String) (st : AccountInfo) (data : Oidc.Claims),
      lookupKey ids account = some st → n = st.nonce →
      jv input jwk context = .ok data →
      st.hash ≠ sha256hex (data.sub ++ ":" ++ data.iss) →
      Oidc.verify_identity jv sha256hex ids account n context jwk input =
        (.ok false, ids)) ∧
    (∀ (jv : String → Oidc.JwkPublicKey → Oidc.OpenIdContext → Outcome Oidc.Claims)
        (sha256hex : String → String) (ids : IdentityStore) (account : String)
        (n : Nat) (context : Oidc.OpenIdContext) (jwk : Oidc.JwkPublicKey)
        (input : String),
      (Oidc.verify_identity jv sha256hex ids account n context jwk input).1 = .ok false →
      Oidc.execute_action jv sha256hex ids (.VerifyIdentity account n context jwk) input =
        .err ("Identity verification failed for account: " ++ account)) ∧
    (∀ (jv : String → Oidc.JwkPublicKey → Oidc.OpenIdContext → Outcome Oidc.Claims)
        (sha256hex : String → String) (ids : IdentityStore) (account : String)
        (n : Nat) (context : Oidc.OpenIdContext) (jwk : Oidc.JwkPublicKey)
        (input e : String),
      (Oidc.verify_identity jv sha256hex ids account n context jwk input).1 = .err e →
      Oidc.execute_action jv sha256hex ids (.VerifyIdentity account n context jwk) input =
        .err ("Error verifying identity: " ++ e)) := by
  refine ⟨?_, ?_, ?_⟩
  · intro jv sha256hex ids account n context jwk input st data hl hn hjv hh
    subst hn
    simp [Oidc.verify_identity, hl, hjv, hh]
  · intro jv sha256hex ids account n context jwk input h
    unfold Oidc.execute_action
    rcases hp : Oidc.verify_identity jv sha256hex ids account n context jwk input with ⟨r, s'⟩
    rw [hp] at h
    simp only at h
    subst h
    simp [hp]
  · intro jv sha256hex ids account n context jwk input e h
    unfold Oidc.execute_action
    rcases hp : Oidc.verify_identity jv sha256hex ids account n context jwk input with ⟨r, s'⟩
    rw [hp] at h
    simp only at h
    subst h
    simp [hp]

/-- C5 witness: the three branches at concrete inputs. -/
theorem C5_false_result_witness :
    Oidc.verify_identity
        (fun _ _ _ => .ok { sub := "u", email := "", exp := 0, aud := "x", iss := "i" })
        (fun s => s) [("b", { hash := "h", nonce := 7 })] "b" 7
        { issuer := "i", audience := "x" } { n := "", e := "" } "t" =
      (.ok false, [("b", { hash := "h", nonce := 7 })]) ∧
    Oidc.execute_action
        (fun _ _ _ => .ok { sub := "u", email := "", exp := 0, aud := "x", iss := "i" })
        (fun s => s) [("b", { hash := "h", nonce := 7 })]
        (.VerifyIdentity "b" 7 { issuer := "i", audience := "x" } { n := "", e := "" }) "t" =
      .err ("Identity verification failed for account: " ++ "b") ∧
    Oidc.execute_action
        (fun _ _ _ => .ok { sub := "u", email := "", exp := 0, aud := "x", iss := "i" })
        (fun s => s) []
        (.VerifyIdentity "b" 7 { issuer := "i", audience := "x" } { n := "", e := "" }) "t" =
      .err ("Error verifying identity: " ++ "Identity not found") :=
  ⟨C5_false_result.1
      (fun _ _ _ => .ok { sub := "u", email := "", exp := 0, aud := "x", iss := "i" })
      (fun s => s) [("b", { hash := "h", nonce := 7 })] "b" 7
      { issuer := "i", audience := "x" } { n := "", e := "" } "t"
      { hash := "h", nonce := 7 }
      { sub := "u", email := "", exp := 0, aud := "x", iss := "i" } rfl rfl rfl (by decide),
    C5_false_result.2.1
      (fun _ _ _ => .ok { sub := "u", email := "", exp := 0, aud := "x", iss := "i" })
      (fun s => s) [("b", { hash := "h", nonce := 7 })] "b" 7
      { issuer := "i", audience := "x" } { n := "", e := "" } "t" rfl,
    C5_false_result.2.2
      (fun _ _ _ => .ok { sub := "u", email := "", exp := 0, aud := "x", iss := "i" })
      (fun s => s) [] "b" 7 { issuer := "i", audience := "x" } { n := "", e := "" } "t"
      "Identity not found" rfl⟩

/-- C6 (code bug): `verify_signature` returns the `DecodeError` only for
malformed hex; a hex-valid but structurally invalid SEC1 key or DER
signature hits `.expect(..)` / `.unwrap()` and panics instead of
returning an error, and `register_identity` additionally `.unwrap()`s the
verifier result, so even the hex `DecodeError` of a non-hex public key
becomes a panic there rather than a returned error. -/
theorem C6_decode_error_paths :
    (∀ (sec1Parse derParse : List Nat → Option (List Nat))
        (ecdsaVerify : List Nat → List Nat → List Nat → Bool) (sig msg : String),
      Ecdsa.verify_signature sec1Parse derParse ecdsaVerify "zz" sig msg =
        .err "Failed to decode Pub key") ∧
    (∀ (sec1Parse derParse : List Nat → Option (List Nat))
        (ecdsaVerify : List Nat → List Nat → List Nat → Bool) (sig msg : String),
      sec1Parse [0] = none →
      Ecdsa.verify_signature sec1Parse derParse ecdsaVerify "00" sig msg =
        .panic "Failed to generate verifying key") ∧
    (∀ (sec1Parse derParse : List Nat → Option (List Nat))
        (ecdsaVerify : List Nat → List Nat → List Nat → Bool) (vk : List Nat)
        (msg : String),
      sec1Parse [0] = some vk → derParse [0] = none →
      Ecdsa.verify_signature sec1Parse derParse ecdsaVerify "00" "00" msg =
        .panic "Signature from_der failed") ∧
    (∀ (sec1Parse derParse : List Nat → Option (List Nat))
        (ecdsaVerify : List Nat → List Nat → List Nat → Bool)
        (sha256hex : String → String) (ids : IdentityStore) (sig : String),
      Ecdsa.register_identity (Ecdsa.verify_signature sec1Parse derParse ecdsaVerify)
          sha256hex ids "zz" sig =
        (.panic "Failed to decode Pub key", ids)) := by
  refine ⟨?_, ?_, ?_, ?_⟩
  · intro sec1Parse derParse ecdsaVerify sig msg
    rfl
  · intro sec1Parse derParse ecdsaVerify sig msg h
    simp [Ecdsa.verify_signature, show Ecdsa.hexDecode "00" = some [0] from rfl, h]
  · intro sec1Parse derParse ecdsaVerify vk msg h1 h2
    simp [Ecdsa.verify_signature, show Ecdsa.hexDecode "00" = some [0] from rfl, h1, h2]
  · intro sec1Parse derParse ecdsaVerify sha256hex ids sig
    have h1 : Ecdsa.verify_signature sec1Parse derParse ecdsaVerify "zz" sig
        "Hyle Registration" = .err "Failed to decode Pub key" := rfl
    simp [Ecdsa.register_identity, h1]

/-- C6 witness: the abstract parsers instantiated concretely, matching the
real p384 behaviour on these inputs (a one-byte string is neither a valid
SEC1 point nor valid DER). -/
theorem C6_decode_error_paths_witness :
    Ecdsa.verify_signature (fun _ => none) (fun _ => none) (fun _ _ _ => false)
        "zz" "00" "m" = .err "Failed to decode Pub key" ∧
    Ecdsa.verify_signature (fun _ => none) (fun _ => none) (fun _ _ _ => false)
        "00" "00" "m" = .panic "Failed to generate verifying key" ∧
    Ecdsa.verify_signature (fun _ => some [0]) (fun _ => none) (fun _ _ _ => false)
        "00" "00" "m" = .panic "Signature from_der failed" ∧
    Ecdsa.register_identity
        (Ecdsa.verify_signature (fun _ => none) (fun _ => none) (fun _ _ _ => false))
        (fun s => s) [] "zz" "s" =
      (.panic "Failed to decode Pub key", []) :=
  ⟨C6_decode_error_paths.1 (fun _ => none) (fun _ => none) (fun _ _ _ => false) "00" "m",
    C6_decode_error_paths.2.1 (fun _ => none) (fun _ => none) (fun _ _ _ => false)
      "00" "m" rfl,
    C6_decode_error_paths.2.2.1 (fun _ => some [0]) (fun _ => none) (fun _ _ _ => false)
      [0] "m" rfl rfl,
    C6_decode_error_paths.2.2.2 (fun _ => none) (fun _ => none) (fun _ _ _ => false)
      (fun s => s) [] "s"⟩

/-- C7 (code bug): a token that does not split into exactly three
dot-separated segments makes the modelled `jwt::verify_jwt_signature`
return the `MalformedToken` error, but both `register_identity` and
`verify_identity` wrap that call in `.expect("Failed to verify ID token
JWT")`, so the failure is a panic that aborts the process, not a local
recoverable error. -/
theorem C7_malformed_token_panics :
    (∀ (rsaVerify : Oidc.JwkPublicKey → String → String → Bool)
        (decodeClaims : String → Option Oidc.Claims) (jwk : Oidc.JwkPublicKey)
        (context : Oidc.OpenIdContext),
      Oidc.verify_jwt_signature rsaVerify decodeClaims "a.b" jwk context =
        .err "MalformedToken") ∧
    (∀ (rsaVerify : Oidc.JwkPublicKey → String → String → Bool)
        (decodeClaims : String → Option Oidc.Claims) (sha256hex : String → String)
        (ids : IdentityStore) (account : String) (context : Oidc.OpenIdContext)
        (jwk : Oidc.JwkPublicKey),
      Oidc.register_identity (Oidc.verify_jwt_signature rsaVerify decodeClaims)
          sha256hex ids account context jwk "a.b" =
        (.panic "Failed to verify ID token JWT", ids)) ∧
    (∀ (rsaVerify : Oidc.JwkPublicKey → String → String → Bool)
        (decodeClaims : String → Option Oidc.Claims) (sha256hex : String → String)
        (ids : IdentityStore) (account : String) (n : Nat)
        (context : Oidc.OpenIdContext) (jwk : Oidc.JwkPublicKey) (st : AccountInfo),
      lookupKey ids account = some st → n = st.nonce →
      Oidc.verify_identity (Oidc.verify_jwt_signature rsaVerify decodeClaims)
          sha256hex ids account n context jwk "a.b" =
        (.panic "Failed to verify ID token JWT", ids)) := by
  refine ⟨?_, ?_, ?_⟩
  · intro rsaVerify decodeClaims jwk context
    rfl
  · intro rsaVerify decodeClaims sha256hex ids account context jwk
    have h1 : Oidc.verify_jwt_signature rsaVerify decodeClaims "a.b" jwk context =
        .err "MalformedToken" := rfl
    simp [Oidc.register_identity, h1]
  · intro rsaVerify decodeClaims sha256hex ids account n context jwk st hl hn
    have h1 : Oidc.verify_jwt_signature rsaVerify decodeClaims "a.b" jwk context =
        .err "MalformedToken" := rfl
    subst hn
    simp [Oidc.verify_identity, hl, h1]

/-- C7 witness: a registered account, nonce matching, two-segment token:
the verify call panics. -/
theorem C7_malformed_token_panics_witness :
    Oidc.verify_identity
        (Oidc.verify_jwt_signature (fun _ _ _ => true) (fun _ => none))
        (fun s => s) [("a", { hash := "h", nonce := 0 })] "a" 0
        { issuer := "i", audience := "x" } { n := "", e := "" } "a.b" =
      (.panic "Failed to verify ID token JWT", [("a", { hash := "h", nonce := 0 })]) :=
  C7_malformed_token_panics.2.2 (fun _ _ _ => true) (fun _ => none) (fun s => s)
    [("a", { hash := "h", nonce := 0 })] "a" 0 { issuer := "i", audience := "x" }
    { n := "", e := "" } { hash := "h", nonce := 0 } rfl rfl

/-- C8 (confirmed): for every well-formed store — sorted unique keys, u32
nonces, `usize`-sized strings and entry count, exactly what a
`BTreeMap<String, AccountInfo>` holds — decoding the digest produced by
`as_digest` yields the same store (and no trailing bytes), and the
`From<StateDigest>` conversion returns it successfully. -/
theorem C8_digest_roundtrip (s : IdentityStore) (h : StoreWF s) :
    decodeStore (as_digest s) = some (s, []) ∧ fromStateDigest (as_digest s) = .ok s := by
  obtain ⟨hsort, hlen, hbnds⟩ := h
  have h1 : varintDecode (varintEncode s.length ++ (s.map encodeEntry).flatten) =
      some (s.length, (s.map encodeEntry).flatten) :=
    varintDecode_encode s.length _ hlen
  have h2 : decodeEntries s.length ((s.map encodeEntry).flatten ++ []) = some (s, []) :=
    decodeEntries_encode s [] hbnds
  rw [List.append_nil] at h2
  have hfold : s.foldl (fun m e => insertKey m e.1 e.2) ([] : IdentityStore) = s := by
    have := foldl_insertKey_sorted s [] (by simpa using hsort)
    simpa using this
  have hd : decodeStore (as_digest s) = some (s, []) := by
    rw [as_digest, decodeStore, h1]
    simp [h2, hfold]
  refine ⟨hd, ?_⟩
  rw [fromStateDigest, hd]

/-- C8 witness: a concrete two-account store (one nonce needing the
two-byte varint form) round-trips. -/
theorem C8_digest_roundtrip_witness :
    StoreWF [("a", { hash := "h", nonce := 300 }), ("b", { hash := "k", nonce := 5 })] ∧
    decodeStore (as_digest
        [("a", { hash := "h", nonce := 300 }), ("b", { hash := "k", nonce := 5 })]) =
      some ([("a", { hash := "h", nonce := 300 }), ("b", { hash := "k", nonce := 5 })], []) ∧
    fromStateDigest (as_digest
        [("a", { hash := "h", nonce := 300 }), ("b", { hash := "k", nonce := 5 })]) =
      .ok [("a", { hash := "h", nonce := 300 }), ("b", { hash := "k", nonce := 5 })] := by
  refine ⟨by decide, ?_, ?_⟩
  · exact (C8_digest_roundtrip
      [("a", { hash := "h", nonce := 300 }), ("b", { hash := "k", nonce := 5 })]
      (by decide)).1
  · exact (C8_digest_roundtrip
      [("a", { hash := "h", nonce := 300 }), ("b", { hash := "k", nonce := 5 })]
      (by decide)).2

/-- C9 (code bug): decoding a truncated buffer (here `[251]`, a two-byte
length marker with no payload) does not return a `CorruptState` error —
the `From<StateDigest>` impl `.unwrap()`s the mapped error and panics with
its payload; indeed no input can make it return an error value, since
`From` has no error channel at all. -/
theorem C9_corrupt_state_panics :
    fromStateDigest [251] = .panic "Could not decode identity state" ∧
    ∀ (bs : List Nat) (m : String), fromStateDigest bs ≠ .err m := by
  refine ⟨rfl, ?_⟩
  intro bs m
  unfold fromStateDigest
  cases hd : decodeStore bs with
  | none => simp
  | some p => simp

/-- C10 (confirmed): in every ECDSA store reachable from the empty state
by register/verify calls (any verifier, any arguments, one fixed hash
function), each stored hash equals the hash of its own map key, so the
stored-hash comparison in `verify_identity` can never fail and
`verify_identity` never produces `Ok(false)`. -/
theorem C10_hash_invariant (sha256hex : String → String) (s : IdentityStore)
    (hr : Ecdsa.Reach sha256hex s) :
    (∀ k info, lookupKey s k = some info → info.hash = sha256hex k) ∧
    (∀ (vs : String → String → String → Outcome Bool) (k : String) (n : Nat)
        (blobs : List Ecdsa.Blob) (sig : String),
      (Ecdsa.verify_identity vs sha256hex s k n blobs sig).1 ≠ .ok false) := by
  have hinv : ∀ k info, lookupKey s k = some info → info.hash = sha256hex k := by
    induction hr with
    | init =>
      intro k info h
      simp [lookupKey] at h
    | reg vs k0 sig s0 hr0 ih =>
      intro k info h
      rcases ecdsa_register_shape vs sha256hex s0 k0 sig with hs | hs
      · rw [hs] at h
        exact ih k info h
      · rw [hs, lookupKey_insertKey] at h
        by_cases hk : k = k0
        · rw [if_pos hk] at h
          injection h with h'
          rw [← h', hk]
        · rw [if_neg hk] at h
          exact ih k info h
    | ver vs k0 n blobs sig s0 hr0 ih =>
      intro k info h
      rcases ecdsa_verify_shape vs sha256hex s0 k0 n blobs sig with hs | ⟨hok, st, hl, hs⟩
      · rw [hs] at h
        exact ih k info h
      · rw [hs, lookupKey_updateKey] at h
        by_cases hk : k = k0 ∧ (lookupKey s0 k0).isSome
        · rw [if_pos hk] at h
          injection h with h'
          rw [← h']
          simpa [hk.1] using ih k0 st hl
        · rw [if_neg hk] at h
          exact ih k info h
  refine ⟨hinv, ?_⟩
  intro vs k n blobs sig hfalse
  obtain ⟨st, hl, hne⟩ := ecdsa_verify_false_hash vs sha256hex s k n blobs sig hfalse
  exact hne (hinv k st hl)

/-- C10 witness: the store reached by one successful registration of key
"k" (with the identity function standing for the hash). -/
theorem C10_hash_invariant_witness :
    (∀ k info,
      lookupKey [("k", { hash := "k", nonce := 0 })] k = some info →
      info.hash = (fun s => s) k) ∧
    (∀ (vs : String → String → String → Outcome Bool) (k : String) (n : Nat)
        (blobs : List Ecdsa.Blob) (sig : String),
      (Ecdsa.verify_identity vs (fun s => s) [("k", { hash := "k", nonce := 0 })]
          k n blobs sig).1 ≠ .ok false) :=
  C10_hash_invariant (fun s => s) [("k", { hash := "k", nonce := 0 })]
    (show Ecdsa.Reach (fun s => s) [("k", { hash := "k", nonce := 0 })] from
      Ecdsa.Reach.reg (fun _ _ _ => .ok true) "k" "sig" [] Ecdsa.Reach.init)
